/-
Verification of the media auto-forwarder server (single-file Node.js/Express
application) against its natural-language specification.

The definitions below are a shallow embedding of the server's data model and
control flow: the routing table and its two mutation endpoints, the message
classifier, the delivery pipeline (native re-upload with fallback forward),
the MIME-to-extension mapping, the initialization-error recovery logic, and
the bounded group-fetch retry loop.
-/

import Mathlib

set_option maxRecDepth 4000

namespace AutoForwarder

/-! ## String helpers (JS semantics)

`listPre a b` is `true` when the list `a` is an initial segment of `b`
(JS `String.prototype.startsWith`); `strIncludes s pat` is JS
`s.includes(pat)` (substring occurrence). -/

def listPre : List Char → List Char → Bool
  | [], _ => true
  | _ :: _, [] => false
  | a :: as, b :: bs => a == b && listPre as bs

def strPre (pat s : String) : Bool := listPre pat.data s.data

def strIncludes (s pat : String) : Bool :=
  (List.range (s.data.length + 1)).any (fun i => listPre pat.data (s.data.drop i))

/-! ## Routing table

`config.rules` is an array of `{ source, targets }` objects.  The POST
endpoint appends (`config.rules.push(newRule)`), the DELETE endpoint removes
by index (`config.rules.splice(index, 1)`) after a range check, and each
mutation rewrites the persisted config file. -/

structure Rule where
  source : String
  targets : List String
  deriving DecidableEq, Repr

def matchRules (rules : List Rule) (chatId : String) : List Rule :=
  rules.filter (fun r => r.source == chatId)

def addRule (rules : List Rule) (r : Rule) : List Rule := rules ++ [r]

/-- `splice(index, 1)` guarded by `index >= 0 && index < config.rules.length`;
out of range answers 400 `Invalid index`. `none` models the error response. -/
def deleteRuleAt (rules : List Rule) (i : Int) : Option (List Rule) :=
  if 0 ≤ i ∧ i < rules.length then some (rules.eraseIdx i.toNat) else none

/-- In-memory table plus the persisted copy (`config.json`); the POST
`/api/config/rules` handler pushes the new rule and persists. -/
structure ApiState where
  rules : List Rule
  persisted : List Rule
  deriving DecidableEq, Repr

inductive ApiResp where
  | ok (rules : List Rule)
  | badRequest (err : String)
  deriving DecidableEq, Repr

structure DeleteOutcome where
  state : ApiState
  wrote : Bool
  resp : ApiResp
  deriving DecidableEq, Repr

/-- The POST `/api/config/rules` handler: append the rule, persist, return
the updated config. -/
def postRuleApi (st : ApiState) (r : Rule) : ApiState × ApiResp :=
  let newRules := st.rules ++ [r]
  ({ rules := newRules, persisted := newRules }, .ok newRules)

/-- The DELETE `/api/config/rules/:index` handler: on an in-range index it
splices out one rule, writes the updated config to disk and returns it; on an
out-of-range index it answers 400 and touches nothing. -/
def deleteRuleApi (st : ApiState) (i : Int) : DeleteOutcome :=
  if 0 ≤ i ∧ i < st.rules.length then
    let newRules := st.rules.eraseIdx i.toNat
    { state := { rules := newRules, persisted := newRules },
      wrote := true, resp := .ok newRules }
  else
    { state := st, wrote := false, resp := .badRequest "Invalid index" }

/-! ## Message classifier

`let isMedia = ['image', 'video', 'gif'].includes(type)`, then a document is
promoted to media when its MIME type starts with `image/` or `video/`. -/

def classifyIsMedia (type mime : String) : Bool :=
  let isMedia0 := ["image", "video", "gif"].contains type
  if type == "document" then
    if strPre "image/" mime || strPre "video/" mime then true else isMedia0
  else isMedia0

/-- The `else` branch of the media check: `chat` messages have their skip
notice commented out (console-only), every other non-media type emits
`Skipped <type> (Not an image/video)` to the socket. -/
def skipEmits (type : String) : List String :=
  if type == "chat" then []
  else ["Skipped " ++ type ++ " (Not an image/video)"]

/-- Skip notices emitted by the message handler: only when the chat has at
least one matching rule and the message classified as non-media. -/
def skipNotices (rules : List Rule) (chatId type mime : String) : List String :=
  if (matchRules rules chatId).length > 0 then
    if classifyIsMedia type mime then [] else skipEmits type
  else []

/-! ## MIME-to-extension mapping

`let ext = mimeMap[mime.split(';')[0]] || mime.split('/')[1].split(';')[0] || 'bin'`.
`jsSplitChar` is JS `String.prototype.split` with a one-character separator
(the only form the source uses); indexing past the end gives `undefined`, and
calling `.split` on `undefined` throws a TypeError — modelled by the `none`
result of `extOfMime`. -/

def jsSplitChar (sep : Char) : List Char → List (List Char)
  | [] => [[]]
  | c :: rest =>
    let r := jsSplitChar sep rest
    if c == sep then [] :: r
    else
      match r with
      | [] => [[c]]
      | h :: t => (c :: h) :: t

def jsSplit (s : String) (sep : Char) : List String :=
  (jsSplitChar sep s.data).map String.mk

def slashChar : Char := Char.ofNat 47

def semiChar : Char := Char.ofNat 59

def mimeMap : List (String × String) :=
  [("video/mp4", "mp4"), ("video/3gpp", "3gp"), ("video/quicktime", "mov"),
   ("video/x-matroska", "mkv"), ("image/jpeg", "jpg"), ("image/png", "png"),
   ("image/webp", "webp"), ("image/gif", "gif"), ("audio/ogg", "ogg"),
   ("audio/mp4", "m4a"), ("audio/mpeg", "mp3")]

def mimeMapLookup (k : String) : Option String :=
  (mimeMap.find? (fun p => p.1 == k)).map Prod.snd

/-- Extension chosen for the temporary artifact; `none` models the JS
TypeError raised when the MIME string has no `/` and misses the table. -/
def extOfMime (mime : String) : Option String :=
  match mimeMapLookup ((jsSplit mime semiChar).headD "") with
  | some e => some e
  | none =>
    match (jsSplit mime slashChar)[1]? with
    | none => none
    | some sub =>
      let subKey := (jsSplit sub semiChar).headD ""
      some (if subKey == "" then "bin" else subKey)

/-! ## Delivery pipeline (per-target attempt)

One iteration of the inner `for (const targetId of rule.targets)` body.  The
environment supplies the outcome of each effectful step (download, the size
the written file reports, whether the send or the forward throws); the trace
records what the attempt did.  Control flow mirrors the source: the
`downloadErr` catch absorbs stage-1 errors, the outer catch absorbs a
forward error, and the cleanup `setTimeout` sits after the `await
client.sendMessage(...)`, so it only runs when the send returned. -/

inductive DownloadOutcome where
  | throws
  | noData
  | ok (mimetype : Option String)
  deriving DecidableEq, Repr

structure AttemptEnv where
  hasMedia : Bool
  download : DownloadOutcome
  writtenSize : Nat
  sendThrows : Bool
  forwardThrows : Bool
  deriving DecidableEq, Repr

structure AttemptTrace where
  fileWritten : Bool
  cleanupScheduled : Bool
  cleanupDelayMs : Nat
  sentAsMedia : Bool
  forwardAttempted : Bool
  errorCaught : Bool
  deriving DecidableEq, Repr

def deliverOne (env : AttemptEnv) : AttemptTrace :=
  let stage1 : Bool × Bool × Bool :=
    if env.hasMedia then
      match env.download with
      | .throws => (false, false, false)
      | .noData => (false, false, false)
      | .ok _ =>
        if env.writtenSize == 0 then (true, false, false)
        else if env.sendThrows then (true, false, false)
        else (true, true, true)
    else (false, false, false)
  let fileWritten := stage1.1
  let cleanupScheduled := stage1.2.1
  let sentAsMedia := stage1.2.2
  if sentAsMedia then
    { fileWritten := fileWritten, cleanupScheduled := cleanupScheduled,
      cleanupDelayMs := 30000, sentAsMedia := true,
      forwardAttempted := false, errorCaught := false }
  else
    { fileWritten := fileWritten, cleanupScheduled := cleanupScheduled,
      cleanupDelayMs := 0, sentAsMedia := false,
      forwardAttempted := true, errorCaught := env.forwardThrows }

/-- The scheduled cleanup callback:
`try { if (fs.existsSync(filePath)) fs.unlinkSync(filePath); } catch (e) { }`. -/
def cleanupFile (fs : List String) (p : String) : List String :=
  if fs.contains p then fs.filter (fun e => !(e == p)) else fs

/-! ## The per-rule / per-target loops -/

def runTargetsLoop (chatId : String) (env : String → AttemptEnv) :
    List String → List (String × AttemptTrace)
  | [] => []
  | t :: ts =>
    if t == chatId then runTargetsLoop chatId env ts
    else (t, deliverOne (env t)) :: runTargetsLoop chatId env ts

def runDelivery (rules : List Rule) (chatId : String) (env : String → AttemptEnv) :
    List (String × AttemptTrace) :=
  ((matchRules rules chatId).map (fun r => runTargetsLoop chatId env r.targets)).flatten

/-- The `(rule, target)` pairs the two nested loops visit, in order. -/
def attemptPairs (rules : List Rule) (chatId : String) : List (Rule × String) :=
  (matchRules rules chatId).flatMap
    (fun r => (r.targets.filter (fun t => !(t == chatId))).map (fun t => (r, t)))

/-! ## Initialization-error recovery (`initializeClient` catch block)

The catch inspects `e.message` for three corruption signatures.  On a match
it sets status, logs, best-effort destroys the client (errors swallowed),
and schedules a callback after 1000 ms; that callback deletes the two
session directories (each guarded by `existsSync`, the whole block wrapped
in try/catch) and schedules `initializeClient` after a further 3000 ms.  Any
other error logs and schedules `initializeClient` after 5000 ms. -/

def corruptionSignatures : List String :=
  ["Execution context was destroyed", "Protocol error", "Evaluation failed"]

def isCorruptionError (errMsg : String) : Bool :=
  corruptionSignatures.any (fun sig => strIncludes errMsg sig)

inductive InitAction where
  | status (s : String)
  | log (s : String)
  | tryDestroy
  | timerCleanup (delayMs : Nat)
  | timerInit (delayMs : Nat)
  deriving DecidableEq, Repr

def handleInitError (errMsg : String) : List InitAction :=
  [.status "Init Error"] ++
  (if isCorruptionError errMsg then
    [.log "CRITICAL ERROR: Session corrupted. Performing auto-cleanup...",
     .tryDestroy, .timerCleanup 1000]
  else
    [.log "Initialization failed. Retrying in 5s...", .timerInit 5000])

def authDir : String := ".wwebjs_auth"

def cacheDir : String := ".wwebjs_cache"

/-- `if (fs.existsSync(dir)) fs.rmSync(dir, { recursive: true, force: true })`:
removes the directory entry and every path below it; a no-op when absent. -/
def rmDirRecursive (fs : List String) (dir : String) : List String :=
  if fs.contains dir then
    fs.filter (fun e => !(e == dir || strPre (dir ++ "/") e))
  else fs

/-- The 1000 ms cleanup callback: wipe both session directories, log, and
schedule the re-initialization 3000 ms later. -/
def cleanupCallback (fs : List String) : List String × List InitAction :=
  (rmDirRecursive (rmDirRecursive fs authDir) cacheDir,
   [.log "Session reset. Restarting in 3s...", .timerInit 3000])

/-! ## Group-directory fetch loop (`fetchGroups`)

`attempts` is incremented at the top of each call; a non-empty group list is
published and re-checked only while `attempts < 5`; an empty list retries on
a 5 s timer while `attempts < 20`, giving up with a manual-refresh notice at
20; a thrown `getChats` retries on the same budget. -/

structure Chat where
  id : String
  name : String
  isGroup : Bool
  deriving DecidableEq, Repr

structure GroupRecord where
  id : String
  name : String
  deriving DecidableEq, Repr

def groupsOf (chats : List Chat) : List GroupRecord :=
  (chats.filter (fun c => c.isGroup)).map (fun c => { id := c.id, name := c.name })

inductive FetchOutcome where
  | failure
  | chats (cs : List Chat)
  deriving DecidableEq, Repr

structure FetchStepResult where
  published : Option (List GroupRecord)
  gaveUp : Bool
  reschedDelay : Option Nat
  deriving DecidableEq, Repr

def fetchStep (attempts : Nat) (o : FetchOutcome) : FetchStepResult :=
  match o with
  | .failure =>
    { published := none, gaveUp := false,
      reschedDelay := if attempts < 20 then some 5000 else none }
  | .chats cs =>
    let groups := groupsOf cs
    if groups.length > 0 then
      { published := some groups, gaveUp := false,
        reschedDelay := if attempts < 5 then some 5000 else none }
    else
      { published := none, gaveUp := ¬ attempts < 20,
        reschedDelay := if attempts < 20 then some 5000 else none }

theorem fetchStep_resched_lt (attempts : Nat) (o : FetchOutcome)
    (h : (fetchStep attempts o).reschedDelay.isSome) : attempts < 20 := by
  by_contra hn
  have h5 : ¬ attempts < 5 := by omega
  rcases o with _ | cs
  · simp [fetchStep, hn] at h
  · simp only [fetchStep] at h
    split at h <;> simp [hn, h5] at h

/-- The chain of `fetchGroups` invocations driven by an outcome stream
(`outcomes k` is what attempt number `k` observes).  Each invocation whose
step schedules a 5 s timer is followed by the next invocation; the inner
bound check is redundant (see `fetchStep_resched_lt`) and only serves
termination. -/
def fetchRun (outcomes : Nat → FetchOutcome) (attemptsBefore : Nat) :
    List FetchStepResult :=
  if (fetchStep (attemptsBefore + 1) (outcomes (attemptsBefore + 1))).reschedDelay.isSome then
    if _h : attemptsBefore + 1 < 20 then
      fetchStep (attemptsBefore + 1) (outcomes (attemptsBefore + 1)) ::
        fetchRun outcomes (attemptsBefore + 1)
    else [fetchStep (attemptsBefore + 1) (outcomes (attemptsBefore + 1))]
  else [fetchStep (attemptsBefore + 1) (outcomes (attemptsBefore + 1))]
termination_by 20 - attemptsBefore

/-! ## Helper lemmas -/

theorem listPre_append_self (a b : List Char) : listPre a (a ++ b) = true := by
  induction a with
  | nil => rfl
  | cons c cs ih => simp [listPre, ih]

theorem strIncludes_sandwich (pre pat post : String) :
    strIncludes (pre ++ pat ++ post) pat = true := by
  unfold strIncludes
  rw [List.any_eq_true]
  refine ⟨pre.data.length, ?_, ?_⟩
  · rw [List.mem_range]
    have : (pre ++ pat ++ post).data = pre.data ++ (pat.data ++ post.data) := by
      simp [String.data_append]
    rw [this]
    simp only [List.length_append]
    omega
  · have : (pre ++ pat ++ post).data = pre.data ++ (pat.data ++ post.data) := by
      simp [String.data_append]
    rw [this, List.drop_left]
    exact listPre_append_self pat.data post.data

theorem append_eraseIdx_length {α : Type} (l : List α) (r : α) :
    (l ++ [r]).eraseIdx l.length = l := by
  induction l with
  | nil => rfl
  | cons a as ih => simp [List.eraseIdx, ih]

theorem runTargetsLoop_eq (chatId : String) (env : String → AttemptEnv)
    (ts : List String) :
    runTargetsLoop chatId env ts =
      (ts.filter (fun t => !(t == chatId))).map (fun t => (t, deliverOne (env t))) := by
  induction ts with
  | nil => rfl
  | cons t ts ih =>
    cases ht : (t == chatId) <;> simp [runTargetsLoop, ht, ih, List.filter_cons]

theorem list_contains_iff (l : List String) (a : String) :
    l.contains a = true ↔ a ∈ l := by
  simp [List.contains]

theorem list_contains_false_iff (l : List String) (a : String) :
    l.contains a = false ↔ a ∉ l := by
  rw [← Bool.not_eq_true, not_iff_not]
  exact list_contains_iff l a

theorem rmDir_mem_subset {fs : List String} {dir e : String}
    (h : e ∈ rmDirRecursive fs dir) : e ∈ fs := by
  unfold rmDirRecursive at h
  by_cases hc : (fs.contains dir) = true
  · rw [if_pos hc] at h
    exact (List.mem_filter.mp h).1
  · rwa [if_neg hc] at h

theorem rmDir_not_contains_self (fs : List String) (dir : String) :
    (rmDirRecursive fs dir).contains dir = false := by
  rw [list_contains_false_iff]
  intro hmem
  unfold rmDirRecursive at hmem
  by_cases hc : (fs.contains dir) = true
  · rw [if_pos hc] at hmem
    have := (List.mem_filter.mp hmem).2
    simp at this
  · rw [if_neg hc] at hmem
    exact (list_contains_false_iff fs dir).mp (by simpa using hc) hmem

theorem rmDir_preserves_not_contains {fs : List String} {dir d2 : String}
    (h : fs.contains d2 = false) : (rmDirRecursive fs dir).contains d2 = false := by
  rw [list_contains_false_iff]
  intro hmem
  exact (list_contains_false_iff fs d2).mp h (rmDir_mem_subset hmem)

theorem rmDir_absent_eq {fs : List String} {dir : String}
    (h : fs.contains dir = false) : rmDirRecursive fs dir = fs := by
  unfold rmDirRecursive
  rw [if_neg]
  intro hx
  rw [h] at hx
  exact Bool.false_ne_true hx

theorem rmDir_subtree {fs : List String} {dir e : String}
    (hc : fs.contains dir = true) (h : e ∈ rmDirRecursive fs dir) :
    strPre (dir ++ "/") e = false := by
  unfold rmDirRecursive at h
  rw [if_pos hc] at h
  have h2 := (List.mem_filter.mp h).2
  simp only [Bool.not_eq_eq_eq_not, Bool.not_true, Bool.or_eq_false_iff] at h2
  exact h2.2

theorem rmDir_keeps_other {fs : List String} {dir d2 : String}
    (hne : (d2 == dir) = false) (hpre : strPre (dir ++ "/") d2 = false)
    (h : fs.contains d2 = true) : (rmDirRecursive fs dir).contains d2 = true := by
  unfold rmDirRecursive
  by_cases hc : (fs.contains dir) = true
  · rw [if_pos hc, list_contains_iff]
    refine List.mem_filter.mpr ⟨(list_contains_iff fs d2).mp h, ?_⟩
    simp [hne, hpre]
  · rw [if_neg hc]
    exact h

theorem fetchRun_length_le (outcomes : Nat → FetchOutcome) (n : Nat) :
    ∀ a, 20 - a ≤ n → a < 20 → (fetchRun outcomes a).length ≤ 20 - a := by
  induction n with
  | zero => intro a hn ha; omega
  | succ n ih =>
    intro a hn ha
    unfold fetchRun
    split
    · split
      · rename_i h20
        rw [List.length_cons]
        have hrec := ih (a + 1) (by omega) h20
        omega
      · rw [List.length_singleton]
        omega
    · rw [List.length_singleton]
      omega

theorem fetchRun_length_le_five (outcomes : Nat → FetchOutcome)
    (hne : ∀ k, ∃ cs, outcomes k = .chats cs ∧ (groupsOf cs).length > 0) (n : Nat) :
    ∀ a, 5 - a ≤ n → a < 5 → (fetchRun outcomes a).length ≤ 5 - a := by
  induction n with
  | zero => intro a hn ha; omega
  | succ n ih =>
    intro a hn ha
    obtain ⟨cs, hcs, hlen⟩ := hne (a + 1)
    have hstep : fetchStep (a + 1) (outcomes (a + 1)) =
        { published := some (groupsOf cs), gaveUp := false,
          reschedDelay := if a + 1 < 5 then some 5000 else none } := by
      rw [hcs]
      simp [fetchStep, hlen]
    unfold fetchRun
    rw [hstep]
    by_cases h5 : a + 1 < 5
    · rw [if_pos (by simp [h5])]
      rw [dif_pos (by omega : a + 1 < 20)]
      rw [List.length_cons]
      have hrec := ih (a + 1) (by omega) h5
      omega
    · rw [if_neg (by simp [h5])]
      rw [List.length_singleton]
      omega

theorem fetchRun_length_pos (outcomes : Nat → FetchOutcome) (a : Nat) :
    1 ≤ (fetchRun outcomes a).length := by
  unfold fetchRun
  split
  · split
    · simp
    · simp
  · simp

theorem jsSplitChar_ne_nil (sep : Char) (s : List Char) : jsSplitChar sep s ≠ [] := by
  induction s with
  | nil => simp [jsSplitChar]
  | cons c rest ih =>
    simp only [jsSplitChar]
    by_cases h : (c == sep) = true
    · simp [h]
    · simp only [h, if_false]
      cases hr : jsSplitChar sep rest with
      | nil => simp
      | cons a t => simp

theorem jsSplit_ne_nil (s : String) (sep : Char) : jsSplit s sep ≠ [] := by
  unfold jsSplit
  intro h
  exact jsSplitChar_ne_nil sep s.data (List.map_eq_nil_iff.mp h)

/-! ## Claim theorems -/

/-- C4: a group message classifies as media exactly when its declared type is
image, video or gif, or its declared type is document and its MIME type
begins with `image/` or `video/`; in particular a document with MIME
`image/png` is media and one with `application/pdf` is not. -/
theorem c4_media_classification :
    (∀ type mime, classifyIsMedia type mime = true ↔
      (type = "image" ∨ type = "video" ∨ type = "gif" ∨
       (type = "document" ∧ (strPre "image/" mime = true ∨ strPre "video/" mime = true)))) ∧
    classifyIsMedia "document" "image/png" = true ∧
    classifyIsMedia "document" "application/pdf" = false := by
  refine ⟨?_, by decide, by decide⟩
  intro type mime
  by_cases h4 : type = "document"
  · subst h4
    simp only [classifyIsMedia]
    cases himg : strPre "image/" mime <;> cases hvid : strPre "video/" mime <;> simp
  · have hb : (type == "document") = false := by simpa using h4
    simp only [classifyIsMedia, hb, Bool.false_eq_true, if_false]
    simp [List.contains, h4]

/-- C9: appending a rule via the POST handler and then deleting at the index
where it landed (the pre-append length) restores the routing table, both for
the pure table operation and through the full API state. -/
theorem c9_append_delete_roundtrip (rules : List Rule) (r : Rule) (st : ApiState) :
    deleteRuleAt (addRule rules r) (rules.length : Int) = some rules ∧
    ((deleteRuleApi (postRuleApi st r).1 (st.rules.length : Int)).state).rules = st.rules := by
  constructor
  · unfold deleteRuleAt addRule
    rw [if_pos]
    · rw [Int.toNat_natCast, append_eraseIdx_length]
    · refine ⟨by positivity, ?_⟩
      have h1 : (rules ++ [r]).length = rules.length + 1 := by simp
      rw [h1]
      exact_mod_cast Nat.lt_succ_self rules.length
  · unfold deleteRuleApi postRuleApi
    simp only
    rw [if_pos]
    · simp only
      rw [Int.toNat_natCast, append_eraseIdx_length]
    · refine ⟨by positivity, ?_⟩
      have h1 : (st.rules ++ [r]).length = st.rules.length + 1 := by simp
      rw [h1]
      exact_mod_cast Nat.lt_succ_self st.rules.length

/-- C10: an out-of-range delete request answers 400 and leaves both the
in-memory table and the persisted copy untouched; an in-range delete removes
exactly the rule at that position (earlier entries keep their index, later
entries shift down by one), persists the updated table and returns it. -/
theorem c10_delete_rule_api (st : ApiState) (i : Int) :
    (¬ (0 ≤ i ∧ i < st.rules.length) →
      deleteRuleApi st i =
        { state := st, wrote := false, resp := .badRequest "Invalid index" }) ∧
    (0 ≤ i → i < st.rules.length →
      (deleteRuleApi st i).state.rules = st.rules.eraseIdx i.toNat ∧
      (deleteRuleApi st i).state.rules.length + 1 = st.rules.length ∧
      (∀ j : Nat, j < i.toNat →
        (deleteRuleApi st i).state.rules[j]? = st.rules[j]?) ∧
      (∀ j : Nat, i.toNat ≤ j →
        (deleteRuleApi st i).state.rules[j]? = st.rules[j + 1]?) ∧
      (deleteRuleApi st i).state.persisted = (deleteRuleApi st i).state.rules ∧
      (deleteRuleApi st i).wrote = true ∧
      (deleteRuleApi st i).resp = .ok (deleteRuleApi st i).state.rules) := by
  constructor
  · intro h
    simp [deleteRuleApi, h]
  · intro h0 hlen
    have hin : 0 ≤ i ∧ i < st.rules.length := ⟨h0, hlen⟩
    have hnat : i.toNat < st.rules.length := by omega
    have e1 : deleteRuleApi st i =
        { state := { rules := st.rules.eraseIdx i.toNat,
                     persisted := st.rules.eraseIdx i.toNat },
          wrote := true, resp := .ok (st.rules.eraseIdx i.toNat) } := by
      unfold deleteRuleApi
      rw [if_pos hin]
    rw [e1]
    refine ⟨rfl, ?_, ?_, ?_, rfl, rfl, rfl⟩
    · rw [List.length_eraseIdx, if_pos hnat]
      omega
    · intro j hj
      exact List.getElem?_eraseIdx_of_lt st.rules i.toNat j hj
    · intro j hj
      exact List.getElem?_eraseIdx_of_ge st.rules i.toNat j hj

/-- C10 witness: concrete delete requests against a two-rule table — index 5
is rejected leaving everything unchanged, index 0 removes the first rule. -/
theorem c10_delete_rule_api_witness :
    deleteRuleApi ⟨[⟨"A", ["B"]⟩, ⟨"C", ["D"]⟩], [⟨"A", ["B"]⟩, ⟨"C", ["D"]⟩]⟩ 5 =
      { state := ⟨[⟨"A", ["B"]⟩, ⟨"C", ["D"]⟩], [⟨"A", ["B"]⟩, ⟨"C", ["D"]⟩]⟩,
        wrote := false, resp := .badRequest "Invalid index" } ∧
    (deleteRuleApi ⟨[⟨"A", ["B"]⟩, ⟨"C", ["D"]⟩], [⟨"A", ["B"]⟩, ⟨"C", ["D"]⟩]⟩ 0).state.rules =
      [⟨"C", ["D"]⟩] := by
  constructor
  · exact (c10_delete_rule_api ⟨[⟨"A", ["B"]⟩, ⟨"C", ["D"]⟩], [⟨"A", ["B"]⟩, ⟨"C", ["D"]⟩]⟩ 5).1
      (by decide)
  · have h := (c10_delete_rule_api
      ⟨[⟨"A", ["B"]⟩, ⟨"C", ["D"]⟩], [⟨"A", ["B"]⟩, ⟨"C", ["D"]⟩]⟩ 0).2 (by decide) (by decide)
    exact h.1.trans (by decide)

/-- C1 counterexample: an attempt whose download succeeds, whose file is
written with 5 bytes, and whose send throws, writes the artifact but never
schedules the 30 s cleanup (the `setTimeout` sits after the awaited send). -/
theorem c1_counterexample :
    (deliverOne ⟨true, .ok (some "video/mp4"), 5, true, false⟩).fileWritten = true ∧
    (deliverOne ⟨true, .ok (some "video/mp4"), 5, true, false⟩).cleanupScheduled = false := by
  decide

/-- C1 amended: deletion of the temporary artifact is scheduled (with the
30 s grace period) exactly when the native send succeeded; when the send or
the zero-byte check throws after the write, no deletion is scheduled and the
artifact is left behind.  The scheduled delete itself is idempotent: deleting
twice equals deleting once, and deleting an absent entry is a no-op. -/
theorem c1_cleanup_scheduling (env : AttemptEnv) (fs : List String) (p : String) :
    (deliverOne env).cleanupScheduled = (deliverOne env).sentAsMedia ∧
    (deliverOne env).cleanupDelayMs = (if (deliverOne env).sentAsMedia then 30000 else 0) ∧
    cleanupFile (cleanupFile fs p) p = cleanupFile fs p ∧
    (fs.contains p = false → cleanupFile fs p = fs) := by
  have key : ∀ l : List String, l.contains p = false → cleanupFile l p = l := by
    intro l hl
    unfold cleanupFile
    rw [if_neg]
    intro hx
    rw [hl] at hx
    exact Bool.false_ne_true hx
  refine ⟨?_, ?_, ?_, key fs⟩
  · rcases env with ⟨hm, dl, ws, sthr, fthr⟩
    cases hm <;> rcases dl with _ | _ | m <;> cases sthr <;> cases fthr <;> cases ws <;>
      simp [deliverOne]
  · rcases env with ⟨hm, dl, ws, sthr, fthr⟩
    cases hm <;> rcases dl with _ | _ | m <;> cases sthr <;> cases fthr <;> cases ws <;>
      simp [deliverOne]
  · by_cases hc : (fs.contains p) = true
    · have hnm : p ∉ fs.filter (fun e => !(e == p)) := by
        intro hmem
        have h2 := (List.mem_filter.mp hmem).2
        simp at h2
      have hfil : (fs.filter (fun e => !(e == p))).contains p = false := by
        rw [Bool.eq_false_iff]
        intro hcon
        rw [list_contains_iff] at hcon
        exact hnm hcon
      have e1 : cleanupFile fs p = fs.filter (fun e => !(e == p)) := by
        unfold cleanupFile
        rw [if_pos hc]
      rw [e1, key _ hfil]
    · have hc2 : fs.contains p = false := by simpa using hc
      rw [key fs hc2, key fs hc2]

/-- C1 witness: instantiating the amended statement at a concrete attempt
(successful send) and a concrete filesystem without the artifact. -/
theorem c1_cleanup_scheduling_witness :
    (deliverOne ⟨true, .ok (some "video/mp4"), 5, false, false⟩).cleanupScheduled =
      (deliverOne ⟨true, .ok (some "video/mp4"), 5, false, false⟩).sentAsMedia ∧
    cleanupFile ["other.txt"] "temp_1.mp4" = ["other.txt"] := by
  constructor
  · exact (c1_cleanup_scheduling ⟨true, .ok (some "video/mp4"), 5, false, false⟩
      ["other.txt"] "temp_1.mp4").1
  · exact (c1_cleanup_scheduling ⟨true, .ok (some "video/mp4"), 5, false, false⟩
      ["other.txt"] "temp_1.mp4").2.2.2 (by decide)

/-- C5: when the message advertises media but the download yields no data, or
the written file reports zero bytes, stage 1 is abandoned (not treated as a
success) and the forward fallback is attempted. -/
theorem c5_zero_byte_fallback (env : AttemptEnv)
    (hm : env.hasMedia = true)
    (h : env.download = .noData ∨
         (∃ m, env.download = .ok m ∧ env.writtenSize = 0)) :
    (deliverOne env).sentAsMedia = false ∧
    (deliverOne env).forwardAttempted = true := by
  rcases env with ⟨hmf, dl, ws, sthr, fthr⟩
  simp only at hm
  subst hm
  rcases h with h | ⟨m, hdl, hws⟩
  · simp only at h
    subst h
    simp [deliverOne]
  · simp only at hdl hws
    subst hdl
    subst hws
    simp [deliverOne]

/-- C5 witness: a zero-byte write on a concrete attempt environment. -/
theorem c5_zero_byte_fallback_witness :
    (deliverOne ⟨true, .ok (some "video/mp4"), 0, false, false⟩).sentAsMedia = false ∧
    (deliverOne ⟨true, .ok (some "video/mp4"), 0, false, false⟩).forwardAttempted = true :=
  c5_zero_byte_fallback ⟨true, .ok (some "video/mp4"), 0, false, false⟩ rfl
    (Or.inr ⟨some "video/mp4", rfl, rfl⟩)

/-- C7 counterexample: a text message (`chat`) in a group with a matching
rule is non-media, yet the handler emits no skip notice — the notice for
text messages is commented out in the source. -/
theorem c7_counterexample :
    (matchRules [⟨"A", ["B"]⟩] "A").length > 0 ∧
    classifyIsMedia "chat" "" = false ∧
    skipNotices [⟨"A", ["B"]⟩] "A" "chat" "" = [] := by
  decide

/-- C7 amended: a non-media message in a matched source emits a skip notice
naming its declared type for every declared type except `chat` (text), which
is discarded silently. -/
theorem c7_skip_notice (rules : List Rule) (chatId type mime : String)
    (hmatch : (matchRules rules chatId).length > 0)
    (hmedia : classifyIsMedia type mime = false) :
    skipNotices rules chatId type mime =
      (if type == "chat" then []
       else ["Skipped " ++ type ++ " (Not an image/video)"]) := by
  simp [skipNotices, hmatch, hmedia, skipEmits]

/-- C7 witness: a sticker in a matched source gets a skip notice naming it. -/
theorem c7_skip_notice_witness :
    skipNotices [⟨"A", ["B"]⟩] "A" "sticker" "" =
      (if ("sticker" : String) == "chat" then []
       else ["Skipped " ++ "sticker" ++ " (Not an image/video)"]) :=
  c7_skip_notice [⟨"A", ["B"]⟩] "A" "sticker" "" (by decide) (by decide)

/-- Failure injection for the C2 witness: the attempt at target B throws in
both stages, every other target succeeds natively. -/
def envFail : String → AttemptEnv := fun t =>
  if t == "B" then ⟨true, .ok (some "video/mp4"), 5, true, true⟩
  else ⟨true, .ok (some "video/mp4"), 5, false, false⟩

/-- C2: the delivery loop visits exactly the `(rule, target)` pairs of the
matched rules (targets equal to the source chat excluded), each attempt's
trace depends only on that target's own environment, the set of visited
targets is independent of any injected failures, and when the combined
targets are distinct the number of attempts equals the number of distinct
targets. -/
theorem c2_failure_isolation (rules : List Rule) (chatId : String)
    (env env2 : String → AttemptEnv) :
    runDelivery rules chatId env =
      (attemptPairs rules chatId).map (fun p => (p.2, deliverOne (env p.2))) ∧
    (runDelivery rules chatId env).map Prod.fst =
      (runDelivery rules chatId env2).map Prod.fst ∧
    (((attemptPairs rules chatId).map Prod.snd).Nodup →
      (runDelivery rules chatId env).length =
        (((attemptPairs rules chatId).map Prod.snd).dedup).length) := by
  have hmain : ∀ e : String → AttemptEnv,
      runDelivery rules chatId e =
        (attemptPairs rules chatId).map (fun p => (p.2, deliverOne (e p.2))) := by
    intro e
    have hloop : (fun r : Rule => runTargetsLoop chatId e r.targets) =
        (fun r : Rule =>
          (r.targets.filter (fun t => !(t == chatId))).map
            (fun t => (t, deliverOne (e t)))) :=
      funext (fun r => runTargetsLoop_eq chatId e r.targets)
    unfold runDelivery attemptPairs
    rw [hloop, List.map_flatMap]
    refine congrArg List.flatten ?_
    have hfun : (fun r : Rule =>
        (r.targets.filter (fun t => !(t == chatId))).map
          (fun t => (t, deliverOne (e t)))) =
        (fun r : Rule =>
          ((r.targets.filter (fun t => !(t == chatId))).map (fun t => (r, t))).map
            (fun p => (p.2, deliverOne (e p.2)))) := by
      funext r
      rw [List.map_map]
      rfl
    rw [hfun]
  refine ⟨hmain env, ?_, ?_⟩
  · rw [hmain env, hmain env2, List.map_map, List.map_map]
    rfl
  · intro hnd
    rw [List.dedup_eq_self.mpr hnd, hmain env, List.length_map, List.length_map]

/-- C2 witness: rule `{source: A, targets: [B, C]}`, a qualifying media
message in A, and a failure injected into the B attempt — two attempts, one
per target, with the C attempt still succeeding natively. -/
theorem c2_failure_isolation_witness :
    (runDelivery [⟨"A", ["B", "C"]⟩] "A" envFail).length =
      (((attemptPairs [⟨"A", ["B", "C"]⟩] "A").map Prod.snd).dedup).length ∧
    (runDelivery [⟨"A", ["B", "C"]⟩] "A" envFail).map Prod.fst = ["B", "C"] ∧
    (deliverOne (envFail "B")).errorCaught = true ∧
    (deliverOne (envFail "B")).sentAsMedia = false ∧
    (deliverOne (envFail "C")).sentAsMedia = true := by
  refine ⟨(c2_failure_isolation [⟨"A", ["B", "C"]⟩] "A" envFail envFail).2.2 (by decide),
    by decide, by decide, by decide, by decide⟩

/-- C3: an initialization error whose message contains a corruption
signature triggers the auto-repair path — best-effort destroy, a 1 s timer
whose callback recursively deletes both session directories (idempotent and
exception-free when they are absent) and then schedules re-initialization
3 s later; any other initialization error schedules a plain retry after 5 s.
Messages containing any of the three signatures are classified as
corruption. -/
theorem c3_init_error_recovery (errMsg : String) (fs : List String) :
    (isCorruptionError errMsg = true →
      handleInitError errMsg =
        [.status "Init Error",
         .log "CRITICAL ERROR: Session corrupted. Performing auto-cleanup...",
         .tryDestroy, .timerCleanup 1000] ∧
      (cleanupCallback fs).2 =
        [.log "Session reset. Restarting in 3s...", .timerInit 3000] ∧
      (cleanupCallback fs).1.contains authDir = false ∧
      (cleanupCallback fs).1.contains cacheDir = false ∧
      (fs.contains authDir = false → fs.contains cacheDir = false →
        (cleanupCallback fs).1 = fs) ∧
      (fs.contains authDir = true → ∀ e ∈ (cleanupCallback fs).1,
        strPre (authDir ++ "/") e = false) ∧
      (fs.contains cacheDir = true → ∀ e ∈ (cleanupCallback fs).1,
        strPre (cacheDir ++ "/") e = false)) ∧
    (isCorruptionError errMsg = false →
      handleInitError errMsg =
        [.status "Init Error", .log "Initialization failed. Retrying in 5s...",
         .timerInit 5000]) ∧
    (∀ pre post : String,
      isCorruptionError (pre ++ "Execution context was destroyed" ++ post) = true ∧
      isCorruptionError (pre ++ "Protocol error" ++ post) = true ∧
      isCorruptionError (pre ++ "Evaluation failed" ++ post) = true) := by
  have hsig : ∀ sig ∈ corruptionSignatures,
      ∀ pre post : String, isCorruptionError (pre ++ sig ++ post) = true := by
    intro sig hmem pre post
    unfold isCorruptionError
    rw [List.any_eq_true]
    exact ⟨sig, hmem, strIncludes_sandwich pre sig post⟩
  refine ⟨?_, ?_, ?_⟩
  · intro h
    refine ⟨by simp [handleInitError, h], rfl, ?_, ?_, ?_, ?_, ?_⟩
    · exact rmDir_preserves_not_contains (rmDir_not_contains_self fs authDir)
    · exact rmDir_not_contains_self (rmDirRecursive fs authDir) cacheDir
    · intro ha hc
      show rmDirRecursive (rmDirRecursive fs authDir) cacheDir = fs
      rw [rmDir_absent_eq ha, rmDir_absent_eq hc]
    · intro ha e he
      have he1 : e ∈ rmDirRecursive fs authDir := rmDir_mem_subset he
      exact rmDir_subtree ha he1
    · intro hc e he
      by_cases ha : (fs.contains authDir) = true
      · have hkeep : (rmDirRecursive fs authDir).contains cacheDir = true :=
          rmDir_keeps_other (by decide) (by decide) hc
        exact rmDir_subtree hkeep he
      · have ha2 : fs.contains authDir = false := by simpa using ha
        rw [show (cleanupCallback fs).1 =
            rmDirRecursive (rmDirRecursive fs authDir) cacheDir from rfl,
          rmDir_absent_eq ha2] at he
        exact rmDir_subtree hc he
  · intro h
    simp [handleInitError, h]
  · intro pre post
    exact ⟨hsig _ (by simp [corruptionSignatures]) pre post,
      hsig _ (by simp [corruptionSignatures]) pre post,
      hsig _ (by simp [corruptionSignatures]) pre post⟩

/-- C3 witness: a concrete `Protocol error` message with both session
directories (one with a child entry) present, and a concrete unrelated
error message. -/
theorem c3_init_error_recovery_witness :
    handleInitError "Oops Protocol error happened" =
      [.status "Init Error",
       .log "CRITICAL ERROR: Session corrupted. Performing auto-cleanup...",
       .tryDestroy, .timerCleanup 1000] ∧
    (cleanupCallback [".wwebjs_auth", ".wwebjs_auth/session", ".wwebjs_cache", "public"]).1.contains
      ".wwebjs_auth" = false ∧
    (cleanupCallback ["public"]).1 = ["public"] ∧
    handleInitError "connect ECONNREFUSED" =
      [.status "Init Error", .log "Initialization failed. Retrying in 5s...",
       .timerInit 5000] := by
  refine ⟨((c3_init_error_recovery "Oops Protocol error happened" []).1 (by decide)).1,
    ?_, ?_, (c3_init_error_recovery "connect ECONNREFUSED" []).2.1 (by decide)⟩
  · exact ((c3_init_error_recovery "Oops Protocol error happened"
      [".wwebjs_auth", ".wwebjs_auth/session", ".wwebjs_cache", "public"]).1
        (by decide)).2.2.1
  · exact (((c3_init_error_recovery "Oops Protocol error happened"
      ["public"]).1 (by decide)).2.2.2.2.1) (by decide) (by decide)

/-- All-successful outcome stream for the C6 witness. -/
def constGroups : Nat → FetchOutcome := fun _ => .chats [⟨"g1", "Group One", true⟩]

/-- C6: the automatic group refresh makes at least one and at most 20
attempts in total; when every attempt sees a non-empty group list (published
from the fetched chats) the loop stops within 5 attempts; a failed fetch
below the 20-attempt budget reschedules in 5 s instead of terminating; an
empty result at attempt 20 gives up. -/
theorem c6_fetch_loop_bounded (outcomes : Nat → FetchOutcome) :
    1 ≤ (fetchRun outcomes 0).length ∧
    (fetchRun outcomes 0).length ≤ 20 ∧
    ((∀ k, ∃ cs, outcomes k = .chats cs ∧ (groupsOf cs).length > 0) →
      (fetchRun outcomes 0).length ≤ 5) ∧
    (∀ attempts cs, (groupsOf cs).length > 0 →
      (fetchStep attempts (.chats cs)).published = some (groupsOf cs) ∧
      (fetchStep attempts (.chats cs)).reschedDelay =
        (if attempts < 5 then some 5000 else none)) ∧
    (∀ attempts, attempts < 20 →
      (fetchStep attempts .failure).reschedDelay = some 5000 ∧
      (fetchStep attempts .failure).gaveUp = false) ∧
    (∀ cs, (groupsOf cs).length = 0 →
      (fetchStep 20 (.chats cs)).gaveUp = true ∧
      (fetchStep 20 (.chats cs)).reschedDelay = none) := by
  refine ⟨fetchRun_length_pos outcomes 0, ?_, ?_, ?_, ?_, ?_⟩
  · exact fetchRun_length_le outcomes 20 0 (by omega) (by omega)
  · intro hne
    exact fetchRun_length_le_five outcomes hne 5 0 (by omega) (by omega)
  · intro attempts cs hlen
    constructor <;> simp [fetchStep, hlen]
  · intro attempts h20
    constructor <;> simp [fetchStep, h20]
  · intro cs hlen
    constructor <;> simp [fetchStep, hlen]

/-- C6 witness: a stream of successful fetches stays within 5 attempts; a
failure at attempt 3 reschedules; an empty result at attempt 20 gives up. -/
theorem c6_fetch_loop_bounded_witness :
    (fetchRun constGroups 0).length ≤ 5 ∧
    (fetchStep 3 .failure).reschedDelay = some 5000 ∧
    (fetchStep 20 (.chats [])).gaveUp = true := by
  refine ⟨(c6_fetch_loop_bounded constGroups).2.2.1 ?_,
    ((c6_fetch_loop_bounded constGroups).2.2.2.2.1 3 (by decide)).1,
    ((c6_fetch_loop_bounded constGroups).2.2.2.2.2 [] (by decide)).1⟩
  intro k
  exact ⟨[⟨"g1", "Group One", true⟩], rfl, by decide⟩

/-- C8 counterexample: for the MIME string `weird` (no `/`, not in the
lookup table) the extension computation does not fall back to `bin` — it
throws a TypeError (`mime.split('/')[1]` is `undefined`), modelled as
`none`. -/
theorem c8_counterexample : extOfMime "weird" = none := by decide

/-- C8 amended: the extension is taken from the fixed lookup table keyed by
the MIME string before any `;`, else from the subtype portion after the
first `/`, with `bin` used when that portion is empty; but when the MIME
string contains no `/` and misses the table, the computation itself throws
(the error is absorbed by the stage-1 catch) instead of yielding `bin`. -/
theorem c8_ext_mapping :
    (∀ mime, extOfMime mime = none ↔
      ((jsSplit mime slashChar).length = 1 ∧
       mimeMapLookup ((jsSplit mime semiChar).headD "") = none)) ∧
    (∀ mime e, mimeMapLookup ((jsSplit mime semiChar).headD "") = some e →
      extOfMime mime = some e) ∧
    (∀ mime sub, mimeMapLookup ((jsSplit mime semiChar).headD "") = none →
      (jsSplit mime slashChar)[1]? = some sub →
      extOfMime mime =
        some (if (jsSplit sub semiChar).headD "" == "" then "bin"
              else (jsSplit sub semiChar).headD "")) ∧
    extOfMime "video/mp4" = some "mp4" ∧
    extOfMime "image/png" = some "png" ∧
    extOfMime "audio/mpeg" = some "mp3" ∧
    extOfMime "application/pdf" = some "pdf" ∧
    extOfMime "video/" = some "bin" ∧
    extOfMime "video/mp4; codecs=avc1" = some "mp4" := by
  refine ⟨?_, ?_, ?_, by decide, by decide, by decide, by decide, by decide, by decide⟩
  · intro mime
    cases hk : mimeMapLookup ((jsSplit mime semiChar).headD "") with
    | some e =>
      unfold extOfMime
      rw [hk]
      simp
    | none =>
      cases hs : (jsSplit mime slashChar)[1]? with
      | none =>
        have hle : (jsSplit mime slashChar).length ≤ 1 :=
          List.getElem?_eq_none_iff.mp hs
        have hpos : 0 < (jsSplit mime slashChar).length :=
          List.length_pos.mpr (jsSplit_ne_nil mime slashChar)
        have hlen : (jsSplit mime slashChar).length = 1 := by omega
        unfold extOfMime
        rw [hk, hs]
        simp [hlen]
      | some sub =>
        have hlt : 1 < (jsSplit mime slashChar).length := by
          rcases List.getElem?_eq_some_iff.mp hs with ⟨h, _⟩
          exact h
        unfold extOfMime
        rw [hk, hs]
        constructor
        · intro h
          simp at h
        · rintro ⟨h1, -⟩
          omega
  · intro mime e hk
    unfold extOfMime
    rw [hk]
  · intro mime sub hk hs
    unfold extOfMime
    rw [hk, hs]

/-- C8 witness: a MIME type outside the table falls back to its subtype
portion; a table hit takes precedence over the subtype. -/
theorem c8_ext_mapping_witness :
    extOfMime "video/x-flv" = some "x-flv" ∧
    extOfMime "video/quicktime" = some "mov" := by
  constructor
  · have h := c8_ext_mapping.2.2.1 "video/x-flv" "x-flv" (by decide) (by decide)
    exact h.trans (by decide)
  · exact c8_ext_mapping.2.1 "video/quicktime" "mov" (by decide)

end AutoForwarder
